import Mathlib

/-!
Verification of the obsidian-kanban-modify drag-reconciliation engine.

The tree model and the drop handler (`handleDrop`, src/unnamed/part_000) are
embedded from the source.  The mutation algebra (`getEntityFromPath`,
`insertEntity`, `removeEntity`, `moveEntity`, `updateEntity` from
`src/dnd/util/data`) and the completion transform (`maybeCompleteForMove`
from `src/components/helpers`) are not present under src/, only their
callers are; those definitions are modelled from the spec (sections 4.1,
4.2 and 4.4) and are marked as such.
-/

namespace Kanban

/-- Entity types of the tree model (`DataTypes` in src/components/types). -/
inductive EntityType where
  | Board
  | Lane
  | Item
deriving DecidableEq, Repr

/-- Entity payload.  `sorted = none` models the JS `sorted === undefined`
(marker absent); `some b` models a present marker. -/
structure EntityData where
  shouldMarkItemsComplete : Bool := false
  sorted : Option Bool := none
  checked : Bool := false
  checkChar : Char := ' '
  title : String := ""
deriving DecidableEq, Repr

/-- A tree entity: `{ id, type, accepts, data, children }` as in the spec's
data model (section 3) and the `Nestable` shape used by the drop handler. -/
inductive Nestable where
  | mk (id : String) (type : EntityType) (accepts : List EntityType)
      (data : EntityData) (children : List Nestable)

def Nestable.id : Nestable → String
  | .mk i _ _ _ _ => i

def Nestable.type : Nestable → EntityType
  | .mk _ t _ _ _ => t

def Nestable.accepts : Nestable → List EntityType
  | .mk _ _ a _ _ => a

def Nestable.data : Nestable → EntityData
  | .mk _ _ _ d _ => d

def Nestable.children : Nestable → List Nestable
  | .mk _ _ _ _ c => c

def Nestable.withChildren : Nestable → List Nestable → Nestable
  | .mk i t a d _, c => .mk i t a d c

def Nestable.withData : Nestable → EntityData → Nestable
  | .mk i t a _ c, d => .mk i t a d c

/-- Paths address entities by child indices from the root (spec section 3). -/
abbrev Path := List Nat

/-- Index component of `path.last()` as used by the drop handler. -/
def lastIdx : Path → Nat
  | [] => 0
  | [i] => i
  | _ :: rest => lastIdx rest

/-- The parent path, `path.slice(0, -1)` in the drop handler. -/
def parentPath : Path → Path
  | [] => []
  | [_] => []
  | i :: rest => i :: parentPath rest

/-- Replace the element at an index, leaving the list unchanged when the
index is out of range. -/
def modifyListAt (l : List Nestable) (i : Nat) (f : Nestable → Nestable) :
    List Nestable :=
  match l, i with
  | [], _ => []
  | x :: xs, 0 => f x :: xs
  | x :: xs, n + 1 => x :: modifyListAt xs n f

/-- Substitute the element at an index, leaving the list unchanged when the
index is out of range. -/
def replaceListAt (l : List Nestable) (i : Nat) (r : Nestable) :
    List Nestable :=
  match l, i with
  | [], _ => []
  | _ :: xs, 0 => r :: xs
  | x :: xs, n + 1 => x :: replaceListAt xs n r

/-- Modelled from the spec: `resolve(tree, path)` of section 4.1
(`getEntityFromPath` in `src/dnd/util/data`, not under src/).  Walks the path
one index at a time and returns `none` (never an exception) when any index
is out of range. -/
def getEntityFromPath : Nestable → Path → Option Nestable
  | e, [] => some e
  | .mk _ _ _ _ children, i :: rest =>
    match children[i]? with
    | some c => getEntityFromPath c rest
    | none => none

/-- Modelled from the spec: `insert(tree, path, newEntities)` of section 4.2
(`insertEntity` in `src/dnd/util/data`, not under src/).  The path is
parent-path plus index; the parent's children at and after the index shift
right.  Rejects as a no-op when the parent does not accept the new
entities' type. -/
def insertEntity : Nestable → Path → List Nestable → Nestable
  | tree, [], _ => tree
  | tree@(.mk i t a d children), [idx], items =>
    if ∀ it ∈ items, it.type ∈ a then
      Nestable.mk i t a d (children.take idx ++ items ++ children.drop idx)
    else tree
  | .mk i t a d children, idx :: rest, items =>
    Nestable.mk i t a d
      (modifyListAt children idx (fun c => insertEntity c rest items))

/-- Modelled from the spec: `remove(tree, path, replacement?)` of section 4.2
(`removeEntity` in `src/dnd/util/data`, not under src/).  Deletes the entity
at the path, or substitutes the replacement when one is supplied; a path
that does not resolve is a no-op. -/
def removeEntity : Nestable → Path → Option Nestable → Nestable
  | tree, [], _ => tree
  | .mk i t a d children, [idx], repl =>
    Nestable.mk i t a d
      (match repl with
       | some r => replaceListAt children idx r
       | none => children.take idx ++ children.drop (idx + 1))
  | .mk i t a d children, idx :: rest, repl =>
    Nestable.mk i t a d
      (modifyListAt children idx (fun c => removeEntity c rest repl))

/-- Unset the sort-override marker on an entity's data. -/
def unsetSorted (e : Nestable) : Nestable :=
  e.withData { e.data with sorted := none }

/-- Apply a function to the entity at a path (no-op when unresolvable). -/
def modifyEntityAt : Nestable → Path → (Nestable → Nestable) → Nestable
  | e, [], f => f e
  | .mk i t a d children, idx :: rest, f =>
    Nestable.mk i t a d
      (modifyListAt children idx (fun c => modifyEntityAt c rest f))

/-- Modelled from the spec: the `patch` of section 4.2 at the one call site
of the drop handler, `updateEntity(board, path, { data: { $unset:
["sorted"] } })` (`updateEntity` in `src/dnd/util/data`, not under src/). -/
def updateEntityUnsetSorted (tree : Nestable) (path : Path) : Nestable :=
  modifyEntityAt tree path unsetSorted

/-- Modelled from the spec: `move(tree, fromPath, toPath, transformMoved,
transformReplacement)` of section 4.2 (`moveEntity` in `src/dnd/util/data`,
not under src/), including the step-4 index correction: when source and
target address siblings under the same parent and the source index is
strictly below the target index, the target's final component drops by
one. -/
def moveEntity (tree : Nestable) (fromPath toPath : Path)
    (transformMoved : Nestable → Nestable)
    (transformReplacement : Nestable → Option Nestable) : Nestable :=
  match getEntityFromPath tree fromPath with
  | none => tree
  | some entity =>
    let replacement := transformReplacement entity
    let moved := transformMoved entity
    let tree1 := removeEntity tree fromPath replacement
    let toPath' :=
      if parentPath fromPath = parentPath toPath ∧
          lastIdx fromPath < lastIdx toPath then
        parentPath toPath ++ [lastIdx toPath - 1]
      else toPath
    insertEntity tree1 toPath' [moved]

/-- Modelled from the spec: the done status character returned by
`getTaskStatusDone` (`src/parsers/helpers/inlineMetadata`, not under
src/). -/
def getTaskStatusDone : Char := 'x'

/-- Modelled from the spec: the pre-done status character returned by
`getTaskStatusPreDone` (`src/parsers/helpers/inlineMetadata`, not under
src/). -/
def getTaskStatusPreDone : Char := '/'

/-- Modelled from the spec: the Completion Transform Hook of section 4.4
(`maybeCompleteForMove` in `src/components/helpers`, not under src/).
Returns `(next, replacement)`: `next` has its completion marker adjusted
when the source and destination parents' marks-complete flags differ, and
`replacement` is what to leave at the source (none for a plain deletion). -/
def maybeCompleteForMove (sourceBoard : Nestable) (fromPath : Path)
    (destBoard : Nestable) (toPath : Path) (entity : Nestable) :
    Nestable × Option Nestable :=
  let sourceFlag :=
    ((getEntityFromPath sourceBoard (parentPath fromPath)).map
      (fun p => p.data.shouldMarkItemsComplete)).getD false
  let destFlag :=
    ((getEntityFromPath destBoard (parentPath toPath)).map
      (fun p => p.data.shouldMarkItemsComplete)).getD false
  if sourceFlag = destFlag then (entity, none)
  else
    (entity.withData { entity.data with
      checked := destFlag
      checkChar := if destFlag then getTaskStatusDone else ' ' }, none)

/-- `arr.splice(i, 0, v)` on a boolean array: insert at an index, appending
when the index exceeds the length (JS splice clamps). -/
def spliceInBool (l : List Bool) (i : Nat) (v : Bool) : List Bool :=
  l.take i ++ v :: l.drop i

/-- `arr.splice(i, 1)` on a boolean array: remove the element at an index,
a no-op when the index is out of range. -/
def spliceOutBool (l : List Bool) (i : Nat) : List Bool :=
  l.take i ++ l.drop (i + 1)

/-- The same-document lane collapse operation of `handleDrop`
(src/unnamed/part_000 lines 220-224):
`newState.splice(to, 0, newState.splice(from, 1)[0])`. -/
def collapseMoveOp (f t : Nat) (l : List Bool) : List Bool :=
  spliceInBool (spliceOutBool l f) t (l.getD f false)

/-- The same-document `setState` updater of `handleDrop`
(src/unnamed/part_000 lines 174-246), with the view's collapse array
threaded explicitly.  Resolves the dragged entity (no-op when absent),
performs the move with the completion transform on items, then either
splices the collapse array in lockstep for a lane move (with the
`from < to` decrement of lines 214-217) or clears the destination lane's
sort marker for an item move into a sorted lane (lines 233-243). -/
def sameDocUpdater (dragPath dropPath : Path) (collapsedState : List Bool)
    (board : Nestable) : Nestable × List Bool :=
  match getEntityFromPath board dragPath with
  | none => (board, collapsedState)
  | some entity =>
    let tMoved := fun (e : Nestable) =>
      if e.type = EntityType.Item then
        (maybeCompleteForMove board dragPath board dropPath e).1
      else e
    let tRepl := fun (e : Nestable) =>
      if e.type = EntityType.Item then
        (maybeCompleteForMove board dragPath board dropPath e).2
      else none
    let newBoard := moveEntity board dragPath dropPath tMoved tRepl
    if entity.type = EntityType.Lane then
      let f := lastIdx dragPath
      let t0 := lastIdx dropPath
      let t := if f < t0 then t0 - 1 else t0
      (newBoard, collapseMoveOp f t collapsedState)
    else
      let destinationParentPath := parentPath dropPath
      match getEntityFromPath board destinationParentPath with
      | some dp =>
        if dp.data.sorted ≠ none then
          (updateEntityUnsetSorted newBoard destinationParentPath,
           collapsedState)
        else (newBoard, collapsedState)
      | none => (newBoard, collapsedState)

/-- The same-document topology of `handleDrop`: lines 170-172 extend the
drop path with a trailing `0` whenever the drop landed on a container
(`inDropArea`), unconditionally, before invoking the updater. -/
def sameDocDrop (dragPath dropPath : Path) (inDropArea : Bool)
    (collapsedState : List Bool) (board : Nestable) : Nestable × List Bool :=
  let dropPath' := if inDropArea then dropPath ++ [0] else dropPath
  sameDocUpdater dragPath dropPath' collapsedState board

/-- Result of the two nested cross-document commits: the source document's
board and collapse array, and the destination document's. -/
structure CrossDocResult where
  sourceBoard : Nestable
  sourceCollapse : List Bool
  destBoard : Nestable
  destCollapse : List Bool

/-- The cross-document flow of `handleDrop` (src/unnamed/part_000 lines
259-328).  The destination `setState` is nested inside the source updater,
so the destination insertion is computed and committed before the source
removal.  Drop-on-container extends the drop path by the destination
parent's child count under the append preference, else by `0` (lines
266-274); resolving a missing parent there dereferences null, returned as
`none`.  Lane moves splice both collapse arrays (lines 294-324). -/
def crossDocDrop (dragPath dropPath0 : Path) (inDropArea appendInsert : Bool)
    (sourceBoard destBoard : Nestable)
    (sourceCollapse destCollapse : List Bool) : Option CrossDocResult :=
  match getEntityFromPath sourceBoard dragPath with
  | none => some ⟨sourceBoard, sourceCollapse, destBoard, destCollapse⟩
  | some entity =>
    match
      (if inDropArea then
        match getEntityFromPath destBoard dropPath0 with
        | none => none
        | some parent =>
          if appendInsert then some (dropPath0 ++ [parent.children.length])
          else some (dropPath0 ++ [0])
      else some dropPath0 : Option Path)
    with
    | none => none
    | some dropPath =>
      let nextRepl :=
        if entity.type = EntityType.Item then
          maybeCompleteForMove sourceBoard dragPath destBoard dropPath entity
        else (entity, none)
      let toInsert := [nextRepl.1]
      let destCommit :=
        if entity.type = EntityType.Lane then
          let val := sourceCollapse.getD (lastIdx dragPath) false
          (insertEntity destBoard dropPath toInsert,
           spliceInBool destCollapse (lastIdx dropPath) val)
        else (insertEntity destBoard dropPath toInsert, destCollapse)
      let sourceCommit :=
        if entity.type = EntityType.Lane then
          (removeEntity sourceBoard dragPath none,
           spliceOutBool sourceCollapse (lastIdx dragPath))
        else (removeEntity sourceBoard dragPath nextRepl.2, sourceCollapse)
      some ⟨sourceCommit.1, sourceCommit.2, destCommit.1, destCommit.2⟩

/-- Modelled from the spec: `stateManager.getNewItem(title, checkChar)`
(`src/StateManager`, not under src/): materializes a fresh item entity for
the given raw content and status character. -/
def getNewItem (title : String) (checkChar : Char) : Nestable :=
  .mk "new-item" EntityType.Item []
    { checked := checkChar = getTaskStatusDone
      checkChar := checkChar
      title := title } []

/-- Modelled from the spec: `toggleTask(item, file)`
(`src/parsers/helpers/inlineMetadata`, not under src/): per the Completion
Transform contract it advances the pre-done item to its done form,
yielding the rewritten content string and the done status character. -/
def toggleTask (item : Nestable) : Option (String × Char) :=
  some (item.data.title, getTaskStatusDone)

/-- Materialization of one external (`htmldnd`) payload string into an item
(src/unnamed/part_000 lines 56-83): items bound for a marks-complete lane
run through the pre-done character and `toggleTask`, all others fall
through to the final update that sets `checked` and the check character
from the destination flag. -/
def materializeHtmlItem (flag : Bool) (title : String) : Nestable :=
  let item0 := getNewItem title ' '
  let item1 :=
    if flag then
      item0.withData { item0.data with checkChar := getTaskStatusPreDone }
    else item0
  match (if flag then toggleTask item1 else none) with
  | some tc => getNewItem tc.1 tc.2
  | none =>
    item1.withData { item1.data with
      checked := flag
      checkChar := if flag then getTaskStatusDone else ' ' }

/-- The items an external (`htmldnd`) drop materializes for insertion
(src/unnamed/part_000 lines 50-83): the destination parent is the entity at
`dropPath.slice(0, -1)` and its marks-complete flag drives the
materialization. -/
def htmldndItems (board : Nestable) (dropPath : Path)
    (titles : List String) : List Nestable :=
  let destinationParent := getEntityFromPath board (parentPath dropPath)
  let flag :=
    (destinationParent.map (fun p => p.data.shouldMarkItemsComplete)).getD
      false
  titles.map (materializeHtmlItem flag)

/-- The external (`htmldnd`) branch of `handleDrop` (src/unnamed/part_000
lines 49-91): materialize the payload and insert it at the drop path. -/
def htmldndDrop (board : Nestable) (dropPath : Path)
    (titles : List String) : Nestable :=
  insertEntity board dropPath (htmldndItems board dropPath titles)

mutual

/-- Number of Item entities in a tree. -/
def countItems : Nestable → Nat
  | .mk _ t _ _ children =>
    (if t = EntityType.Item then 1 else 0) + countItemsL children

/-- Number of Item entities in a forest. -/
def countItemsL : List Nestable → Nat
  | [] => 0
  | c :: cs => countItems c + countItemsL cs

end

/-- The local `const` bindings of the non-external part of `handleDrop`
(src/unnamed/part_000 lines 94-98). -/
inductive HandleDropLocal where
  | dragPath
  | dropPath
  | dragEntityData
  | dropEntityData
deriving DecidableEq, Repr

/-- Transcribed from src/unnamed/part_000 lines 94-98: the `const`
declarations of `handleDrop`'s non-external prologue in source order, each
paired with the handler-local bindings its initializer reads.  Line 94
initializes `dragPath` from `dragEntityData.originalPath ||
dragEntity.getPath()`; `dragEntityData` itself is only declared on line
97. -/
def handleDropPrologue : List (HandleDropLocal × List HandleDropLocal) :=
  [(.dragPath, [.dragEntityData]),
   (.dropPath, []),
   (.dragEntityData, []),
   (.dropEntityData, [])]

/-- JavaScript temporal-dead-zone semantics for a straight-line block of
`const` declarations: executing the block top to bottom, reading a local
that has not yet been initialized raises a ReferenceError naming it.
Returns the local named by the first such error, or `none` when the block
runs to completion. -/
def firstTdzError (done : List HandleDropLocal) :
    List (HandleDropLocal × List HandleDropLocal) → Option HandleDropLocal
  | [] => none
  | (x, reads) :: rest =>
    match reads.find? (fun r => !done.contains r) with
    | some r => some r
    | none => firstTdzError (x :: done) rest

/-- Kanban view formats relevant to the view transform manager
(src/unnamed/part_001). -/
inductive KanbanFormat where
  | board
  | list
  | eisenhower
  | gtd
deriving DecidableEq, Repr

/-- The virtual lane titles of `EISENHOWER_VIEW` (src/unnamed/part_001). -/
def eisenhowerVirtualLanes : List String :=
  ["重要且紧急 🔴", "重要不紧急 🟢", "不重要但紧急 🟡", "不重要不紧急 ⚪"]

/-- The virtual lane titles of `GTD_VIEW` (src/unnamed/part_001). -/
def gtdVirtualLanes : List String :=
  ["收集箱 📥", "处理中 🔄", "等待/授权 ⏳", "已完成 ✅"]

/-- `ViewTransformManager.getViewDefinition` (src/unnamed/part_001 lines
139-148), reduced to the `virtualLanes` field the lane-count logic uses. -/
def getViewDefinition : KanbanFormat → Option (List String)
  | .eisenhower => some eisenhowerVirtualLanes
  | .gtd => some gtdVirtualLanes
  | _ => none

/-- `ViewTransformManager.ensureLaneCount` (src/unnamed/part_001 lines
150-185).  `now` stands for the `Date.now()` timestamp used in the
generated lane ids. -/
def ensureLaneCount (targetView : KanbanFormat) (now : Nat)
    (board : Nestable) : Nestable :=
  match getViewDefinition targetView with
  | none => board
  | some virtualLanes =>
    let requiredCount := virtualLanes.length
    let currentCount := board.children.length
    if requiredCount ≤ currentCount then
      board.withChildren (board.children.take requiredCount)
    else
      board.withChildren
        (board.children ++
          (List.range' currentCount (requiredCount - currentCount)).map
            (fun i =>
              Nestable.mk ("lane-" ++ toString now ++ "-" ++ toString i)
                EntityType.Lane [EntityType.Item]
                { title := virtualLanes.getD i ""
                  shouldMarkItemsComplete := false } []))

/-- The four Eisenhower quadrants (src/unnamed/part_003). -/
inductive Quadrant where
  | q1
  | q2
  | q3
  | q4
deriving DecidableEq, Repr

/-- The digit character of a quadrant as it appears in the inline tag. -/
def Quadrant.digit : Quadrant → Char
  | .q1 => '1'
  | .q2 => '2'
  | .q3 => '3'
  | .q4 => '4'

/-- Whitespace as matched by the regex class `\s` (on the character set the
titles use). -/
def isWs (c : Char) : Bool :=
  c = ' ' ∨ c = '\t' ∨ c = '\n' ∨ c = '\r'

/-- Case-insensitive match of a list against a lowercase pattern prefix,
as the regex `i` flag compares literal characters. -/
def startsWithCI : List Char → List Char → Bool
  | _, [] => true
  | [], _ :: _ => false
  | c :: cs, p :: ps => (c.toLower = p) && startsWithCI cs ps

/-- The 14 fixed leading characters of the tag pattern
`\[eisenhower::q` (src/unnamed/part_003 line 8). -/
def tagPat : List Char := "[eisenhower::q".data

/-- Map a digit character to its quadrant when it is one of `1`-`4`. -/
def quadOfDigit : Char → Option Quadrant
  | '1' => some .q1
  | '2' => some .q2
  | '3' => some .q3
  | '4' => some .q4
  | _ => none

/-- Match of the pattern `\[eisenhower::(q[1-4])\]` (case-insensitive) at
the head of a character list, returning the captured quadrant. -/
def tagAt (cs : List Char) : Option Quadrant :=
  if startsWithCI cs tagPat then
    match cs.drop 14 with
    | d :: c :: _ => if c = ']' then quadOfDigit d else none
    | _ => none
  else none

/-- Length of the maximal whitespace run at the head of a list. -/
def wsCount : List Char → Nat
  | [] => 0
  | c :: cs => if isWs c then wsCount cs + 1 else 0

/-- Fuel-driven worker for `removeTags`; the fuel bounds the number of
scan steps and is at least the list length at every call. -/
def removeTagsF : Nat → List Char → List Char
  | 0, cs => cs
  | _ + 1, [] => []
  | fuel + 1, c :: rest =>
    let k := wsCount (c :: rest)
    if (tagAt ((c :: rest).drop k)).isSome then
      removeTagsF fuel ((c :: rest).drop (k + 16))
    else c :: removeTagsF fuel rest

/-- `titleRaw.replace(/\s*\[eisenhower::(q[1-4])\]/gi, "")`
(src/unnamed/part_003 line 33): a single left-to-right pass removing every
whitespace-run-plus-tag occurrence; matches found are not rescanned.  A
match consumes the maximal whitespace run before the tag, since stopping
the `\s*` earlier leaves a whitespace character where `[` is required. -/
def removeTags (cs : List Char) : List Char :=
  removeTagsF cs.length cs

/-- Fuel-driven worker for `squeezeWs`. -/
def squeezeWsF : Nat → List Char → List Char
  | 0, cs => cs
  | _ + 1, [] => []
  | fuel + 1, c :: rest =>
    let k := wsCount (c :: rest)
    if 2 ≤ k then ' ' :: squeezeWsF fuel ((c :: rest).drop k)
    else c :: squeezeWsF fuel rest

/-- `result.replace(/\s{2,}/g, " ")` (src/unnamed/part_003 line 35): every
run of two or more whitespace characters becomes a single space; a lone
whitespace character is kept as it is. -/
def squeezeWs (cs : List Char) : List Char :=
  squeezeWsF cs.length cs

/-- `String.prototype.trim`: strip leading and trailing whitespace. -/
def trimChars (cs : List Char) : List Char :=
  ((cs.dropWhile isWs).reverse.dropWhile isWs).reverse

/-- The cleaned residue `setEisenhowerQuadrant` computes before appending
the new tag (src/unnamed/part_003 lines 33-35). -/
def cleanTitle (cs : List Char) : List Char :=
  trimChars (squeezeWs (removeTags cs))

/-- The characters of the inline tag `[eisenhower::qN]` for a quadrant. -/
def tagChars (q : Quadrant) : List Char :=
  tagPat ++ [q.digit, ']']

/-- `setEisenhowerQuadrant(titleRaw, quadrant)` (src/unnamed/part_003 lines
30-42): strip existing tags, squeeze whitespace, trim, then append a space
and the new tag. -/
def setEisenhowerQuadrant (titleRaw : String) (q : Quadrant) : String :=
  String.mk (cleanTitle titleRaw.data ++ ' ' :: tagChars q)

/-- First match of `EISENHOWER_FIELD_PATTERN` in a character list. -/
def getEisenhowerQuadrantL : List Char → Option Quadrant
  | [] => none
  | c :: cs =>
    match tagAt (c :: cs) with
    | some q => some q
    | none => getEisenhowerQuadrantL cs

/-- `getEisenhowerQuadrant(titleRaw)` (src/unnamed/part_003 lines 15-24):
the quadrant captured by the first match of the tag pattern, or null. -/
def getEisenhowerQuadrant (titleRaw : String) : Option Quadrant :=
  getEisenhowerQuadrantL titleRaw.data

/-- Number of positions at which the tag pattern matches.  Matches of the
pattern cannot overlap (`[` occurs only at a tag's head), so this equals
the number of matches a global regex scan reports. -/
def countTags : List Char → Nat
  | [] => 0
  | c :: rest =>
    (if (tagAt (c :: rest)).isSome then 1 else 0) + countTags rest

/-- `countTags` on a string. -/
def countTagsStr (s : String) : Nat := countTags s.data

/-- Source document for the cross-document demonstrations: one lane
holding one item. -/
def demoSourceBoard : Nestable :=
  .mk "docA" .Board [.Lane] {}
    [.mk "L" .Lane [.Item] {} [.mk "I0" .Item [] { title := "I0" } []]]

/-- `demoSourceBoard` after its only item has been removed. -/
def demoSourceBoardEmptied : Nestable :=
  .mk "docA" .Board [.Lane] {} [.mk "L" .Lane [.Item] {} []]

/-- Destination document for the cross-document demonstrations: one lane,
no items. -/
def demoDestBoard : Nestable :=
  .mk "docB" .Board [.Lane] {} [.mk "M" .Lane [.Item] {} []]

/-- A board whose single lane marks dropped items complete. -/
def demoMarksCompleteBoard : Nestable :=
  .mk "docE" .Board [.Lane] {}
    [.mk "mc" .Lane [.Item] { shouldMarkItemsComplete := true } []]

/-- A two-lane board with no items, for the path-resolution scenario. -/
def demoTwoLaneBoard : Nestable :=
  .mk "docD" .Board [.Lane] {}
    [.mk "p" .Lane [.Item] {} [], .mk "q" .Lane [.Item] {} []]

/-- A four-lane board with lanes titled a, b, c, d. -/
def demoFourLaneBoard : Nestable :=
  .mk "docF" .Board [.Lane] {}
    [.mk "la" .Lane [.Item] { title := "a" } [],
     .mk "lb" .Lane [.Item] { title := "b" } [],
     .mk "lc" .Lane [.Item] { title := "c" } [],
     .mk "ld" .Lane [.Item] { title := "d" } []]

/-- The outcome of moving lane `p` of `demoTwoLaneBoard` into
`demoDestBoard` at index 0: the destination gains the lane and a collapse
entry, the source loses both. -/
def demoCrossResult : CrossDocResult :=
  ⟨.mk "docD" .Board [.Lane] {} [.mk "q" .Lane [.Item] {} []],
   [false],
   .mk "docB" .Board [.Lane] {}
     [.mk "p" .Lane [.Item] {} [], .mk "M" .Lane [.Item] {} []],
   [false, false]⟩

/-- A destination document whose single lane carries the sort-override
marker and one item. -/
def demoSortedDestBoard : Nestable :=
  .mk "docG" .Board [.Lane] {}
    [.mk "S" .Lane [.Item] { sorted := some true }
      [.mk "J" .Item [] { title := "J" } []]]

/-- A same-document board: lane 0 holds one item, lane 1 carries the
sort-override marker. -/
def demoSortedSameBoard : Nestable :=
  .mk "docH" .Board [.Lane] {}
    [.mk "L0" .Lane [.Item] {} [.mk "I0" .Item [] { title := "I0" } []],
     .mk "S1" .Lane [.Item] { sorted := some true } []]

/-- The outcome of the cross-document move of `demoSourceBoard`'s item
into `demoSortedDestBoard`'s sorted lane at index 0. -/
def demoSortedCrossResult : CrossDocResult :=
  ⟨demoSourceBoardEmptied, [false],
   .mk "docG" .Board [.Lane] {}
     [.mk "S" .Lane [.Item] { sorted := some true }
       [.mk "I0" .Item [] { title := "I0" } [],
        .mk "J" .Item [] { title := "J" } []]],
   [false]⟩

/-- The spec's scenario board: `{L0: [I0, I1], L1: [I2]}`. -/
def demoSpecScenarioBoard : Nestable :=
  .mk "docI" .Board [.Lane] {}
    [.mk "L0" .Lane [.Item] {}
      [.mk "I0" .Item [] { title := "I0" } [],
       .mk "I1" .Item [] { title := "I1" } []],
     .mk "L1" .Lane [.Item] {}
      [.mk "I2" .Item [] { title := "I2" } []]]

/-- Cross-document source document `{L0: [I0, I1]}`. -/
def demoCrossSrcBoard : Nestable :=
  .mk "docJ" .Board [.Lane] {}
    [.mk "L0" .Lane [.Item] {}
      [.mk "I0" .Item [] { title := "I0" } [],
       .mk "I1" .Item [] { title := "I1" } []]]

/-- Cross-document destination document `{L1: [I2]}`. -/
def demoCrossDstBoard : Nestable :=
  .mk "docK" .Board [.Lane] {}
    [.mk "L1" .Lane [.Item] {}
      [.mk "I2" .Item [] { title := "I2" } []]]

/-- A six-lane board whose last two lanes hold one item each. -/
def demoSixLaneBoard : Nestable :=
  .mk "docC" .Board [.Lane] {}
    [.mk "a" .Lane [.Item] {} [],
     .mk "b" .Lane [.Item] {} [],
     .mk "c" .Lane [.Item] {} [],
     .mk "d" .Lane [.Item] {} [],
     .mk "e" .Lane [.Item] {} [.mk "i4" .Item [] { title := "I4" } []],
     .mk "f" .Lane [.Item] {} [.mk "i5" .Item [] { title := "I5" } []]]

end Kanban

namespace Kanban

@[simp]
theorem Nestable.type_mk (i : String) (t : EntityType) (a : List EntityType)
    (d : EntityData) (c : List Nestable) : (Nestable.mk i t a d c).type = t :=
  rfl

@[simp]
theorem Nestable.data_mk (i : String) (t : EntityType) (a : List EntityType)
    (d : EntityData) (c : List Nestable) : (Nestable.mk i t a d c).data = d :=
  rfl

@[simp]
theorem Nestable.accepts_mk (i : String) (t : EntityType)
    (a : List EntityType) (d : EntityData) (c : List Nestable) :
    (Nestable.mk i t a d c).accepts = a :=
  rfl

@[simp]
theorem Nestable.children_mk (i : String) (t : EntityType)
    (a : List EntityType) (d : EntityData) (c : List Nestable) :
    (Nestable.mk i t a d c).children = c :=
  rfl

@[simp]
theorem Nestable.children_withChildren (b : Nestable) (c : List Nestable) :
    (b.withChildren c).children = c := by
  cases b
  rfl

@[simp]
theorem Nestable.data_withChildren (b : Nestable) (c : List Nestable) :
    (b.withChildren c).data = b.data := by
  cases b
  rfl

@[simp]
theorem Nestable.type_withChildren (b : Nestable) (c : List Nestable) :
    (b.withChildren c).type = b.type := by
  cases b
  rfl

@[simp]
theorem Nestable.data_withData (b : Nestable) (d : EntityData) :
    (b.withData d).data = d := by
  cases b
  rfl

/-- C6.  The drop handler cannot run to completion for any gesture that
reaches its non-external prologue: executing the `const` block of
src/unnamed/part_000 lines 94-98 under JavaScript temporal-dead-zone
semantics raises a ReferenceError for `dragEntityData`, which line 94
reads three lines before its declaration.  Every same-document and
cross-document gesture (`scopeId ≠ 'htmldnd'`) reaches this block, so the
handler throws instead of completing. -/
theorem handleDrop_prologue_raises_tdz_error :
    firstTdzError [] handleDropPrologue = some HandleDropLocal.dragEntityData :=
  rfl

/-- C1.  Cross-document move where the destination commit cannot proceed:
the dragged item is addressed into the destination board's root, whose
accepts-relation (`Board → Lane`) rejects an item, so the destination-side
insert is the no-op the spec prescribes for a type-mismatch rejection.
The source removal is committed regardless, so the item ends up in
neither document: the pair of boards goes from holding one item to
holding none. -/
theorem crossDoc_rejected_insert_still_commits_removal :
    crossDocDrop [0, 0] [0] false false demoSourceBoard demoDestBoard
        [false] [false] =
      some ⟨demoSourceBoardEmptied, [false], demoDestBoard, [false]⟩ ∧
    countItems demoSourceBoard + countItems demoDestBoard = 1 ∧
    countItems demoSourceBoardEmptied + countItems demoDestBoard = 0 :=
  ⟨rfl, rfl, rfl⟩

/-- C10.  For either virtual view, `ensureLaneCount` returns a board with
exactly four lanes; a board already at or above four lanes is truncated to
its first four children (dropping the surplus lanes with everything they
contain), and a board below four is padded with fresh empty lanes that
accept items. -/
theorem ensureLaneCount_exactly_four (v : KanbanFormat) (vl : List String)
    (h : getViewDefinition v = some vl) (now : Nat) (board : Nestable) :
    (ensureLaneCount v now board).children.length = 4 ∧
    (4 ≤ board.children.length →
      (ensureLaneCount v now board).children = board.children.take 4) ∧
    (board.children.length < 4 →
      ∃ pad : List Nestable,
        (ensureLaneCount v now board).children = board.children ++ pad ∧
        pad.length = 4 - board.children.length ∧
        ∀ l ∈ pad, l.type = EntityType.Lane ∧
          l.accepts = [EntityType.Item] ∧ l.children = []) := by
  have hvl : getViewDefinition v = some vl → vl.length = 4 := by
    cases v <;> simp [getViewDefinition, eisenhowerVirtualLanes,
      gtdVirtualLanes] <;> rintro rfl <;> rfl
  have hlen := hvl h
  unfold ensureLaneCount
  rw [h]
  dsimp only
  by_cases hb : 4 ≤ board.children.length
  · rw [hlen, if_pos hb]
    refine ⟨?_, fun _ => by simp, fun hlt => absurd hb (by omega)⟩
    simp [List.length_take]
    omega
  · rw [hlen, if_neg hb]
    refine ⟨?_, fun hge => absurd hge hb, fun _ => ?_⟩
    · simp [List.length_range']
      omega
    · refine ⟨(List.range' board.children.length
          (4 - board.children.length)).map
          (fun i => Nestable.mk ("lane-" ++ toString now ++ "-" ++ toString i)
            EntityType.Lane [EntityType.Item]
            { title := vl.getD i "", shouldMarkItemsComplete := false } []),
          ?_, ?_, ?_⟩
      · simp
      · simp [List.length_range']
      · intro l hl
        simp only [List.mem_map] at hl
        obtain ⟨i, _, rfl⟩ := hl
        exact ⟨rfl, rfl, rfl⟩

/-- Witness for C10: a concrete six-lane board is truncated to its first
four lanes, and the two dropped lanes' items are gone, so the operation
does not conserve entity count. -/
theorem ensureLaneCount_exactly_four_witness :
    (ensureLaneCount KanbanFormat.eisenhower 7 demoSixLaneBoard).children.length
        = 4 ∧
    countItems demoSixLaneBoard = 2 ∧
    countItems (ensureLaneCount KanbanFormat.eisenhower 7 demoSixLaneBoard)
        = 0 :=
  ⟨(ensureLaneCount_exactly_four KanbanFormat.eisenhower eisenhowerVirtualLanes
      rfl 7 demoSixLaneBoard).1, rfl, rfl⟩

/-- C7.  A move whose drag path does not resolve against the current board
snapshot is a silent no-op in both topologies: the same-document updater
returns the original board and collapse array, and the cross-document flow
returns both documents' boards and collapse arrays unchanged (the
destination updater is never reached). -/
theorem unresolved_drag_path_is_noop :
    (∀ (dragPath dropPath : Path) (inDropArea : Bool)
        (collapse : List Bool) (board : Nestable),
      getEntityFromPath board dragPath = none →
      sameDocDrop dragPath dropPath inDropArea collapse board =
        (board, collapse)) ∧
    (∀ (dragPath dropPath0 : Path) (inDropArea appendInsert : Bool)
        (sourceBoard destBoard : Nestable) (sc dc : List Bool),
      getEntityFromPath sourceBoard dragPath = none →
      crossDocDrop dragPath dropPath0 inDropArea appendInsert
          sourceBoard destBoard sc dc =
        some ⟨sourceBoard, sc, destBoard, dc⟩) := by
  constructor
  · intro dragPath dropPath inDropArea collapse board h
    unfold sameDocDrop sameDocUpdater
    rw [h]
  · intro dragPath dropPath0 inDropArea appendInsert sourceBoard destBoard
      sc dc h
    unfold crossDocDrop
    rw [h]

/-- Witness for C7: the spec's scenario, path `[5,0]` against a two-lane
board, resolves to nothing, and both flows return their inputs
unchanged. -/
theorem unresolved_drag_path_is_noop_witness :
    getEntityFromPath demoTwoLaneBoard [5, 0] = none ∧
    sameDocDrop [5, 0] [0, 0] false [false, false] demoTwoLaneBoard =
      (demoTwoLaneBoard, [false, false]) ∧
    crossDocDrop [5, 0] [0, 0] false false demoTwoLaneBoard demoDestBoard
        [false, false] [false] =
      some ⟨demoTwoLaneBoard, [false, false], demoDestBoard, [false]⟩ :=
  ⟨rfl,
   unresolved_drag_path_is_noop.1 [5, 0] [0, 0] false [false, false]
     demoTwoLaneBoard rfl,
   unresolved_drag_path_is_noop.2 [5, 0] [0, 0] false false demoTwoLaneBoard
     demoDestBoard [false, false] [false] rfl⟩

/-- C8.  Every item an external (`htmldnd`) drop materializes carries the
destination lane's completion state: when the destination parent's
`shouldMarkItemsComplete` flag is `b`, every inserted item has
`checked = b`, with the done status character when `b` is true and a
space otherwise. -/
theorem htmldnd_items_follow_destination_flag (board : Nestable)
    (dropPath : Path) (titles : List String) (b : Bool)
    (h : ((getEntityFromPath board (parentPath dropPath)).map
        (fun p => p.data.shouldMarkItemsComplete)).getD false = b) :
    ∀ it ∈ htmldndItems board dropPath titles,
      it.data.checked = b ∧
      it.data.checkChar = (if b then getTaskStatusDone else ' ') := by
  intro it hit
  simp only [htmldndItems] at hit
  rw [h] at hit
  simp only [List.mem_map] at hit
  obtain ⟨title, _, rfl⟩ := hit
  cases b
  · exact ⟨rfl, rfl⟩
  · exact ⟨rfl, rfl⟩

/-- Witness for C8: one payload string dropped into a marks-complete lane
materializes checked with the done character, and into a plain lane
unchecked with a space. -/
theorem htmldnd_items_follow_destination_flag_witness :
    (htmldndItems demoMarksCompleteBoard [0, 0] ["task"]).map
        (fun it => (it.data.checked, it.data.checkChar)) =
      [(true, 'x')] ∧
    (htmldndItems demoDestBoard [0, 0] ["task"]).map
        (fun it => (it.data.checked, it.data.checkChar)) =
      [(false, ' ')] := by
  constructor
  · have h := htmldnd_items_follow_destination_flag demoMarksCompleteBoard
      [0, 0] ["task"] true rfl (materializeHtmlItem true "task")
      (List.Mem.head _)
    show List.map (fun it => (it.data.checked, it.data.checkChar))
      [materializeHtmlItem true "task"] = [(true, 'x')]
    simp only [List.map_cons, List.map_nil]
    rw [h.1, h.2]
    rfl
  · have h := htmldnd_items_follow_destination_flag demoDestBoard
      [0, 0] ["task"] false rfl (materializeHtmlItem false "task")
      (List.Mem.head _)
    show List.map (fun it => (it.data.checked, it.data.checkChar))
      [materializeHtmlItem false "task"] = [(false, ' ')]
    simp only [List.map_cons, List.map_nil]
    rw [h.1, h.2]
    rfl

/-- C2.  Same-document lane move with source index `f` strictly below
target index `t` (siblings under the board root): the final target index
is corrected to `t - 1`, the board's lane list becomes "remove at `f`,
reinsert at `t - 1`", and the collapse array is updated by exactly the
same splice. -/
theorem sameDoc_lane_move_forward_correction (bid : String)
    (bdata : EntityData) (lanes : List Nestable) (collapse : List Bool)
    (f t : Nat) (lf : Nestable) (hget : lanes[f]? = some lf)
    (hlane : lf.type = EntityType.Lane) (hft : f < t) :
    sameDocDrop [f] [t] false collapse
        (Nestable.mk bid EntityType.Board [EntityType.Lane] bdata lanes) =
      (Nestable.mk bid EntityType.Board [EntityType.Lane] bdata
        ((lanes.take f ++ lanes.drop (f + 1)).take (t - 1) ++
          lf :: (lanes.take f ++ lanes.drop (f + 1)).drop (t - 1)),
       (collapse.take f ++ collapse.drop (f + 1)).take (t - 1) ++
         collapse.getD f false ::
           (collapse.take f ++ collapse.drop (f + 1)).drop (t - 1)) := by
  unfold sameDocDrop sameDocUpdater moveEntity
  simp only [getEntityFromPath, hget, parentPath, lastIdx]
  simp [removeEntity, insertEntity, collapseMoveOp, spliceInBool,
    spliceOutBool, hft, hlane]

/-- Witness for C2: on the four-lane board `[a, b, c, d]`, moving lane
index 1 to path-index 3 lands at corrected index 2, yielding
`[a, c, b, d]`, and the collapse array `[false, true, false, false]`
becomes `[false, false, true, false]` by the same splice. -/
theorem sameDoc_lane_move_forward_correction_witness :
    ((sameDocDrop [1] [3] false [false, true, false, false]
        demoFourLaneBoard).1.children.map (fun l => l.data.title) =
      ["a", "c", "b", "d"]) ∧
    (sameDocDrop [1] [3] false [false, true, false, false]
        demoFourLaneBoard).2 = [false, false, true, false] := by
  have hb : demoFourLaneBoard =
      Nestable.mk "docF" EntityType.Board [EntityType.Lane] {}
        demoFourLaneBoard.children := rfl
  rw [hb, sameDoc_lane_move_forward_correction "docF" {}
    demoFourLaneBoard.children [false, true, false, false] 1 3
    (Nestable.mk "lb" EntityType.Lane [EntityType.Item] { title := "b" } [])
    rfl rfl (by omega)]
  exact ⟨rfl, rfl⟩

/-- C3.  Lane-level moves keep the collapse array index-synchronized with
the lane list.  Same-document lane move: the move-splice preserves the
equality of lengths.  Cross-document lane move: the destination board
gains one lane and its collapse array one entry (at the drop index), the
source board loses one lane and its collapse array one entry (at the drag
index), so both equalities are preserved. -/
theorem lane_move_preserves_collapse_length :
    (∀ (bid : String) (bdata : EntityData) (lanes : List Nestable)
        (collapse : List Bool) (f t : Nat) (lf : Nestable),
      lanes[f]? = some lf → lf.type = EntityType.Lane →
      collapse.length = lanes.length →
      (sameDocDrop [f] [t] false collapse
          (Nestable.mk bid EntityType.Board [EntityType.Lane] bdata
            lanes)).2.length =
        (sameDocDrop [f] [t] false collapse
          (Nestable.mk bid EntityType.Board [EntityType.Lane] bdata
            lanes)).1.children.length) ∧
    (∀ (sid did : String) (sdata ddata : EntityData)
        (slanes dlanes : List Nestable) (sc dc : List Bool) (f g : Nat)
        (ap : Bool) (lf : Nestable) (r : CrossDocResult),
      slanes[f]? = some lf → lf.type = EntityType.Lane →
      sc.length = slanes.length → dc.length = dlanes.length →
      crossDocDrop [f] [g] false ap
          (Nestable.mk sid EntityType.Board [EntityType.Lane] sdata slanes)
          (Nestable.mk did EntityType.Board [EntityType.Lane] ddata dlanes)
          sc dc = some r →
      r.destBoard.children.length = dlanes.length + 1 ∧
      r.destCollapse.length = dc.length + 1 ∧
      r.sourceBoard.children.length = slanes.length - 1 ∧
      r.sourceCollapse.length = sc.length - 1 ∧
      r.sourceCollapse.length = r.sourceBoard.children.length ∧
      r.destCollapse.length = r.destBoard.children.length) := by
  constructor
  · intro bid bdata lanes collapse f t lf hget hlane hcol
    have hflen : f < lanes.length := by
      rcases List.getElem?_eq_some.mp hget with ⟨h, _⟩
      exact h
    unfold sameDocDrop sameDocUpdater moveEntity
    simp only [getEntityFromPath, hget, parentPath, lastIdx]
    simp [removeEntity, insertEntity, collapseMoveOp, spliceInBool,
      spliceOutBool, hlane]
    split_ifs <;>
      simp [insertEntity, hlane, List.length_take, List.length_drop, hcol]
  · intro sid did sdata ddata slanes dlanes sc dc f g ap lf r hget hlane
      hscol hdcol hr
    have hflen : f < slanes.length := by
      rcases List.getElem?_eq_some.mp hget with ⟨h, _⟩
      exact h
    unfold crossDocDrop at hr
    simp only [getEntityFromPath, hget] at hr
    simp [removeEntity, insertEntity, spliceInBool, spliceOutBool, lastIdx,
      hlane] at hr
    rw [← hr]
    simp [List.length_take, List.length_drop]
    omega

/-- Witness for C3: the concrete same-document lane move keeps the
collapse length equal to the lane count, and the concrete cross-document
lane move yields documents whose collapse lengths again match their lane
counts. -/
theorem lane_move_preserves_collapse_length_witness :
    ((sameDocDrop [1] [3] false [false, true, false, false]
        demoFourLaneBoard).2.length =
      (sameDocDrop [1] [3] false [false, true, false, false]
        demoFourLaneBoard).1.children.length) ∧
    (crossDocDrop [0] [0] false false demoTwoLaneBoard demoDestBoard
        [false, false] [false] = some demoCrossResult) ∧
    demoCrossResult.sourceCollapse.length =
      demoCrossResult.sourceBoard.children.length ∧
    demoCrossResult.destCollapse.length =
      demoCrossResult.destBoard.children.length := by
  refine ⟨?_, rfl, ?_, ?_⟩
  · exact lane_move_preserves_collapse_length.1 "docF" {}
      demoFourLaneBoard.children [false, true, false, false] 1 3
      (Nestable.mk "lb" EntityType.Lane [EntityType.Item] { title := "b" } [])
      rfl rfl rfl
  · exact (lane_move_preserves_collapse_length.2 "docD" "docB" {} {}
      demoTwoLaneBoard.children demoDestBoard.children [false, false] [false]
      0 0 false (Nestable.mk "p" EntityType.Lane [EntityType.Item] {} [])
      demoCrossResult rfl rfl rfl rfl rfl).2.2.2.2.1
  · exact (lane_move_preserves_collapse_length.2 "docD" "docB" {} {}
      demoTwoLaneBoard.children demoDestBoard.children [false, false] [false]
      0 0 false (Nestable.mk "p" EntityType.Lane [EntityType.Item] {} [])
      demoCrossResult rfl rfl rfl rfl rfl).2.2.2.2.2

theorem getElem?_modifyListAt (l : List Nestable) (i k : Nat)
    (f : Nestable → Nestable) :
    (modifyListAt l i f)[k]? = if i = k then (l[k]?).map f else l[k]? := by
  induction l generalizing i k with
  | nil => simp [modifyListAt]
  | cons x xs ih =>
    cases i with
    | zero => cases k <;> simp [modifyListAt]
    | succ n =>
      cases k with
      | zero => simp [modifyListAt]
      | succ kk => simpa [modifyListAt] using ih n kk

theorem getEntityFromPath_single (t : Nestable) (k : Nat) :
    getEntityFromPath t [k] = t.children[k]? := by
  cases t with
  | mk i ty a d ch =>
    simp only [getEntityFromPath, Nestable.children_mk]
    cases ch[k]? <;> rfl

theorem data_insertEntity_single (c : Nestable) (m : Nat)
    (items : List Nestable) : (insertEntity c [m] items).data = c.data := by
  cases c with
  | mk i ty a d ch =>
    simp only [insertEntity]
    split_ifs <;> rfl

theorem children_insertEntity_two (t : Nestable) (k m : Nat)
    (items : List Nestable) :
    (insertEntity t (k :: m :: []) items).children =
      modifyListAt t.children k (fun c => insertEntity c [m] items) := by
  cases t
  rfl

theorem children_removeEntity_two (t : Nestable) (i j : Nat)
    (r : Option Nestable) :
    (removeEntity t (i :: j :: []) r).children =
      modifyListAt t.children i (fun c => removeEntity c [j] r) := by
  cases t
  rfl

theorem sorted_preserved_insertEntity_two (t : Nestable) (k m k' : Nat)
    (items : List Nestable) :
    (getEntityFromPath (insertEntity t (k :: m :: []) items) [k']).map
        (fun l => l.data.sorted) =
      (getEntityFromPath t [k']).map (fun l => l.data.sorted) := by
  rw [getEntityFromPath_single, getEntityFromPath_single,
    children_insertEntity_two, getElem?_modifyListAt]
  split_ifs with h
  · cases hx : t.children[k']? <;> simp [data_insertEntity_single]
  · rfl

theorem get_modifyEntityAt (t : Nestable) (p : Path)
    (f : Nestable → Nestable) :
    getEntityFromPath (modifyEntityAt t p f) p =
      (getEntityFromPath t p).map f := by
  induction p generalizing t with
  | nil =>
    cases t
    simp [modifyEntityAt, getEntityFromPath]
  | cons i rest ih =>
    cases t with
    | mk ti ty a d ch =>
      simp only [modifyEntityAt, getEntityFromPath, getElem?_modifyListAt,
        if_pos]
      cases hx : ch[i]? with
      | none => rfl
      | some c => simpa using ih c

theorem isSome_getEntity_moveEntity_two (board : Nestable)
    (i j k m k' : Nat) (tM : Nestable → Nestable)
    (tR : Nestable → Option Nestable) :
    (getEntityFromPath
        (moveEntity board (i :: j :: []) (k :: m :: []) tM tR)
        [k']).isSome =
      (getEntityFromPath board [k']).isSome := by
  unfold moveEntity
  cases hres : getEntityFromPath board (i :: j :: []) with
  | none => rfl
  | some e =>
    dsimp only
    simp only [parentPath, lastIdx, List.cons_append, List.nil_append]
    split_ifs with hc <;>
    · rw [getEntityFromPath_single, getEntityFromPath_single]
      rw [children_insertEntity_two, children_removeEntity_two]
      simp only [getElem?_modifyListAt]
      split_ifs <;> cases hx : board.children[k']? <;> simp

/-- C4 counterexample.  A cross-document move of an item into a lane that
carries the sort-override marker leaves the marker present (`some true`),
not absent, on the resulting lane: the cross-document branch of
`handleDrop` (src/unnamed/part_000 lines 276-310) has no counterpart of
the same-document branch's marker clearing. -/
theorem crossDoc_insert_into_sorted_lane_keeps_marker :
    ((crossDocDrop [0, 0] [0, 0] false false demoSourceBoard
        demoSortedDestBoard [false] [false]).bind
      (fun r => getEntityFromPath r.destBoard [0])).map
        (fun l => l.data.sorted) = some (some true) ∧
    ¬ ((crossDocDrop [0, 0] [0, 0] false false demoSourceBoard
        demoSortedDestBoard [false] [false]).bind
      (fun r => getEntityFromPath r.destBoard [0])).map
        (fun l => l.data.sorted) = some none := by
  constructor
  · rfl
  · intro hc
    exact Option.noConfusion
      (Option.some.inj
        (hc : (some (some true) : Option (Option Bool)) = some none))

/-- C4 (amended).  The sort-override marker is cleared only by the
same-document branch: a same-document item move into a lane whose `sorted`
is present leaves the lane with the marker absent, while a cross-document
item move and an external (`htmldnd`) insertion leave the destination
lane's marker exactly as it was. -/
theorem sorted_marker_clearing_by_topology :
    (∀ (board : Nestable) (i j k m : Nat) (collapse : List Bool)
        (it laneK : Nestable),
      getEntityFromPath board (i :: j :: []) = some it →
      it.type = EntityType.Item →
      getEntityFromPath board [k] = some laneK →
      laneK.data.sorted ≠ none →
      (getEntityFromPath
          (sameDocDrop (i :: j :: []) (k :: m :: []) false collapse
            board).1 [k]).map (fun l => l.data.sorted) = some none) ∧
    (∀ (sourceBoard destBoard : Nestable) (i j k m : Nat)
        (sc dc : List Bool) (it : Nestable) (r : CrossDocResult),
      getEntityFromPath sourceBoard (i :: j :: []) = some it →
      it.type = EntityType.Item →
      crossDocDrop (i :: j :: []) (k :: m :: []) false false sourceBoard
          destBoard sc dc = some r →
      (getEntityFromPath r.destBoard [k]).map (fun l => l.data.sorted) =
        (getEntityFromPath destBoard [k]).map (fun l => l.data.sorted)) ∧
    (∀ (board : Nestable) (k m : Nat) (titles : List String),
      (getEntityFromPath (htmldndDrop board (k :: m :: []) titles)
          [k]).map (fun l => l.data.sorted) =
        (getEntityFromPath board [k]).map (fun l => l.data.sorted)) := by
  refine ⟨?_, ?_, ?_⟩
  · intro board i j k m collapse it laneK hit hitem hlk hsorted
    unfold sameDocDrop sameDocUpdater
    simp only [Bool.false_eq_true, if_false]
    rw [hit]
    dsimp only
    rw [hitem]
    rw [if_neg (by simp)]
    simp only [parentPath]
    rw [hlk]
    dsimp only
    rw [if_pos hsorted]
    unfold updateEntityUnsetSorted
    rw [get_modifyEntityAt]
    have hs : (getEntityFromPath
        (moveEntity board (i :: j :: []) (k :: m :: [])
          (fun e =>
            if e.type = EntityType.Item then
              (maybeCompleteForMove board (i :: j :: []) board
                (k :: m :: []) e).1
            else e)
          (fun e =>
            if e.type = EntityType.Item then
              (maybeCompleteForMove board (i :: j :: []) board
                (k :: m :: []) e).2
            else none)) [k]).isSome := by
      rw [isSome_getEntity_moveEntity_two, hlk]
      rfl
    obtain ⟨X, hX⟩ := Option.isSome_iff_exists.mp hs
    rw [hX]
    simp [unsetSorted]
  · intro sourceBoard destBoard i j k m sc dc it r hit hitem hr
    unfold crossDocDrop at hr
    rw [hit] at hr
    dsimp only at hr
    rw [hitem] at hr
    simp only [Bool.false_eq_true, if_false] at hr
    injection hr with h
    rw [← h]
    exact sorted_preserved_insertEntity_two destBoard k m k _
  · intro board k m titles
    unfold htmldndDrop
    exact sorted_preserved_insertEntity_two board k m k _

/-- Witness for C4: the same-document move into the sorted lane clears the
marker; the cross-document move and the external insertion leave it as it
was. -/
theorem sorted_marker_clearing_by_topology_witness :
    ((getEntityFromPath
        (sameDocDrop [0, 0] [1, 0] false [] demoSortedSameBoard).1
        [1]).map (fun l => l.data.sorted) = some none) ∧
    (crossDocDrop [0, 0] [0, 0] false false demoSourceBoard
        demoSortedDestBoard [false] [false] = some demoSortedCrossResult) ∧
    ((getEntityFromPath demoSortedCrossResult.destBoard [0]).map
        (fun l => l.data.sorted) =
      (getEntityFromPath demoSortedDestBoard [0]).map
        (fun l => l.data.sorted)) ∧
    ((getEntityFromPath (htmldndDrop demoSortedDestBoard [0, 0] ["new"])
        [0]).map (fun l => l.data.sorted) =
      (getEntityFromPath demoSortedDestBoard [0]).map
        (fun l => l.data.sorted)) := by
  refine ⟨?_, rfl, ?_, ?_⟩
  · exact sorted_marker_clearing_by_topology.1 demoSortedSameBoard 0 0 1 0 []
      (Nestable.mk "I0" EntityType.Item [] { title := "I0" } [])
      (Nestable.mk "S1" EntityType.Lane [EntityType.Item]
        { sorted := some true } [])
      rfl rfl rfl (by simp)
  · exact sorted_marker_clearing_by_topology.2.1 demoSourceBoard
      demoSortedDestBoard 0 0 0 0 [false] [false]
      (Nestable.mk "I0" EntityType.Item [] { title := "I0" } [])
      demoSortedCrossResult rfl rfl rfl
  · exact sorted_marker_clearing_by_topology.2.2 demoSortedDestBoard 0 0
      ["new"]

/-- C5 counterexample.  A same-document drop onto a container ignores the
insertion-order preference: on the spec's board `{L0: [I0, I1], L1: [I2]}`
dropping `I0` onto lane `L1` (drop area, the claim expects the append
policy to give `[I2, I0]`) extends the path with `0` and yields
`[I0, I2]`, because the same-document branch of `handleDrop` (lines
170-172) always pushes `0`. -/
theorem sameDoc_container_drop_always_inserts_at_head :
    ((getEntityFromPath
        (sameDocDrop [0, 0] [1] true [] demoSpecScenarioBoard).1 [1]).map
      (fun l => l.children.map (fun c => c.data.title))) =
      some ["I0", "I2"] ∧
    ¬ ((getEntityFromPath
        (sameDocDrop [0, 0] [1] true [] demoSpecScenarioBoard).1 [1]).map
      (fun l => l.children.map (fun c => c.data.title))) =
      some ["I2", "I0"] := by
  constructor
  · rfl
  · intro hc
    exact absurd
      (hc : (some ["I0", "I2"] : Option (List String)) = some ["I2", "I0"])
      (by decide)

/-- C5 (amended).  The container-drop path extension follows the
insertion-order preference only in the cross-document flow, where the
trailing index is `length(parent.children)` under the append preference
and `0` otherwise; the same-document flow always extends the drop path
with a trailing `0`. -/
theorem container_drop_path_extension :
    (∀ (dragPath dropPath : Path) (collapse : List Bool)
        (board : Nestable),
      sameDocDrop dragPath dropPath true collapse board =
        sameDocUpdater dragPath (dropPath ++ [0]) collapse board) ∧
    (∀ (dragPath dropPath0 : Path) (ap : Bool)
        (sourceBoard destBoard : Nestable) (sc dc : List Bool)
        (p : Nestable),
      getEntityFromPath destBoard dropPath0 = some p →
      crossDocDrop dragPath dropPath0 true ap sourceBoard destBoard
          sc dc =
        crossDocDrop dragPath
          (dropPath0 ++ [if ap then p.children.length else 0]) false ap
          sourceBoard destBoard sc dc) := by
  constructor
  · intro dragPath dropPath collapse board
    rfl
  · intro dragPath dropPath0 ap sourceBoard destBoard sc dc p hp
    unfold crossDocDrop
    cases getEntityFromPath sourceBoard dragPath with
    | none => rfl
    | some e =>
      dsimp only
      rw [hp]
      cases ap <;> rfl

/-- Witness for C5: the cross-document analog of the spec's append
scenario goes through the preference-driven extension, and with the append
policy the dropped item lands after `I2`: the destination lane reads
`[I2, I0]` and the source lane keeps only `[I1]`. -/
theorem container_drop_path_extension_witness :
    (crossDocDrop [0, 0] [0] true true demoCrossSrcBoard demoCrossDstBoard
        [false] [false] =
      crossDocDrop [0, 0] [0, 1] false true demoCrossSrcBoard
        demoCrossDstBoard [false] [false]) ∧
    ((crossDocDrop [0, 0] [0] true true demoCrossSrcBoard demoCrossDstBoard
        [false] [false]).bind
      (fun r => getEntityFromPath r.destBoard [0])).map
        (fun l => l.children.map (fun c => c.data.title)) =
      some ["I2", "I0"] ∧
    ((crossDocDrop [0, 0] [0] true true demoCrossSrcBoard demoCrossDstBoard
        [false] [false]).bind
      (fun r => getEntityFromPath r.sourceBoard [0])).map
        (fun l => l.children.map (fun c => c.data.title)) =
      some ["I1"] :=
  ⟨container_drop_path_extension.2 [0, 0] [0] true demoCrossSrcBoard
      demoCrossDstBoard [false] [false]
      (Nestable.mk "L1" EntityType.Lane [EntityType.Item] {}
        [Nestable.mk "I2" EntityType.Item [] { title := "I2" } []]) rfl,
   rfl, rfl⟩

theorem startsWithCI_append : ∀ (ps l r : List Char),
    ps.length ≤ l.length → startsWithCI (l ++ r) ps = startsWithCI l ps
  | [], l, r, _ => by cases l <;> cases r <;> rfl
  | p :: ps', [], r, h => by simp at h
  | p :: ps', c :: cs, r, h => by
    simp only [List.cons_append, startsWithCI, List.append_eq]
    rw [startsWithCI_append ps' cs r (by simpa using h)]

theorem startsWithCI_space_short : ∀ (ps l r : List Char),
    (∀ p ∈ ps, p ≠ ' ') → l.length < ps.length →
    startsWithCI (l ++ ' ' :: r) ps = false
  | [], l, r, _, hl => by simp at hl
  | p :: ps', [], r, hs, _ => by
    have hp : p ≠ ' ' := hs p (List.mem_cons_self p ps')
    simp only [List.nil_append, startsWithCI]
    have hlow : ¬ (' '.toLower = p) := by
      rw [show ' '.toLower = ' ' from rfl]
      exact fun hc => hp hc.symm
    rw [decide_eq_false hlow]
    simp
  | p :: ps', c :: cs, r, hs, hl => by
    simp only [List.cons_append, startsWithCI, List.append_eq]
    rw [startsWithCI_space_short ps' cs r
      (fun x hx => hs x (List.mem_cons_of_mem _ hx)) (by simpa using hl)]
    simp

theorem tagPat_no_space : ∀ p ∈ tagPat, p ≠ ' ' := by decide

theorem tagAt_append_space (l r : List Char) (hl : l.length < 16) :
    tagAt (l ++ ' ' :: r) = none := by
  by_cases h14 : l.length < 14
  · unfold tagAt
    rw [startsWithCI_space_short tagPat l r tagPat_no_space
      (by rw [show tagPat.length = 14 from rfl]; exact h14)]
    rfl
  · have h14' : 14 ≤ l.length := by omega
    unfold tagAt
    rw [List.drop_append_of_le_length h14']
    have hd : (l.drop 14).length ≤ 1 := by
      rw [List.length_drop]
      omega
    cases hsw : startsWithCI (l ++ ' ' :: r) tagPat
    · simp
    · simp only [if_true]
      cases hdrop : l.drop 14 with
      | nil =>
        simp only [List.nil_append]
        cases r <;> simp [quadOfDigit]
      | cons d tl =>
        cases tl with
        | nil => simp
        | cons ck tl2 =>
          rw [hdrop] at hd
          simp at hd

theorem tagAt_none_append_space (l r' : List Char) (h : tagAt l = none) :
    tagAt (l ++ ' ' :: r') = none := by
  by_cases hlen : l.length < 16
  · exact tagAt_append_space l r' hlen
  · have h14 : 14 ≤ l.length := by omega
    unfold tagAt at h ⊢
    rw [List.drop_append_of_le_length h14,
      startsWithCI_append tagPat l (' ' :: r')
        (by rw [show tagPat.length = 14 from rfl]; omega)]
    have hd2 : 2 ≤ (l.drop 14).length := by
      rw [List.length_drop]
      omega
    cases hdrop : l.drop 14 with
    | nil =>
      rw [hdrop] at hd2
      simp at hd2
    | cons d tl =>
      cases tl with
      | nil =>
        rw [hdrop] at hd2
        simp at hd2
      | cons ck tl2 =>
        rw [hdrop] at h
        simpa using h

theorem countTags_zero_cons (c : Char) (rest : List Char)
    (h : countTags (c :: rest) = 0) :
    tagAt (c :: rest) = none ∧ countTags rest = 0 := by
  by_cases ht : (tagAt (c :: rest)).isSome
  · exfalso
    simp only [countTags, if_pos ht] at h
    omega
  · refine ⟨Option.not_isSome_iff_eq_none.mp ht, ?_⟩
    simpa [countTags, if_neg ht] using h

theorem roundtrip_core (q : Quadrant) :
    ∀ l : List Char, countTags l = 0 →
      getEisenhowerQuadrantL (l ++ ' ' :: tagChars q) = some q ∧
      countTags (l ++ ' ' :: tagChars q) = 1
  | [], _ => by cases q <;> exact ⟨rfl, rfl⟩
  | c :: rest, h => by
    obtain ⟨h1, h2⟩ := countTags_zero_cons c rest h
    obtain ⟨ih1, ih2⟩ := roundtrip_core q rest h2
    have hnone := tagAt_none_append_space (c :: rest) (tagChars q) h1
    simp only [List.cons_append] at hnone
    constructor
    · simp only [List.cons_append, getEisenhowerQuadrantL, List.append_eq]
      rw [hnone]
      exact ih1
    · simp only [List.cons_append, countTags, List.append_eq, hnone]
      simpa using ih2

/-- C9 (amended).  For every title whose cleaned residue (tag removal,
whitespace squeezing, trimming) contains no `[eisenhower::_]` tag — in
particular any title whose tags are plain, non-overlapping occurrences —
`setEisenhowerQuadrant` appends exactly one tag, the result holds exactly
one tag, and `getEisenhowerQuadrant` reads back the quadrant just set. -/
theorem setEisenhower_roundtrip_of_clean (t : String) (q : Quadrant)
    (h : countTags (cleanTitle t.data) = 0) :
    getEisenhowerQuadrant (setEisenhowerQuadrant t q) = some q ∧
    countTagsStr (setEisenhowerQuadrant t q) = 1 :=
  roundtrip_core q (cleanTitle t.data) h

/-- Witness for C9: a plain tagged title round-trips and carries exactly
one tag afterwards. -/
theorem setEisenhower_roundtrip_of_clean_witness :
    getEisenhowerQuadrant
        (setEisenhowerQuadrant "hello [eisenhower::q3] world"
          Quadrant.q2) = some Quadrant.q2 ∧
    countTagsStr
        (setEisenhowerQuadrant "hello [eisenhower::q3] world"
          Quadrant.q2) = 1 :=
  setEisenhower_roundtrip_of_clean "hello [eisenhower::q3] world"
    Quadrant.q2 (by decide)

/-- C9 counterexample.  The removal regex runs in a single pass, so on the
title `[eisenhower:[eisenhower::q1]:q2]` deleting the inner tag splices a
new `[eisenhower::q2]` together out of the surrounding text; the appended
tag then loses to it.  Setting quadrant q1 yields a string whose first tag
reads q2 and which holds two tags, refuting the round-trip and the
exactly-one-tag claim. -/
theorem setEisenhower_roundtrip_fails_on_nested_tags :
    getEisenhowerQuadrant
        (setEisenhowerQuadrant "[eisenhower:[eisenhower::q1]:q2]"
          Quadrant.q1) = some Quadrant.q2 ∧
    countTagsStr
        (setEisenhowerQuadrant "[eisenhower:[eisenhower::q1]:q2]"
          Quadrant.q1) = 2 ∧
    ¬ (getEisenhowerQuadrant
        (setEisenhowerQuadrant "[eisenhower:[eisenhower::q1]:q2]"
          Quadrant.q1) = some Quadrant.q1 ∧
      countTagsStr
        (setEisenhowerQuadrant "[eisenhower:[eisenhower::q1]:q2]"
          Quadrant.q1) = 1) := by decide

end Kanban


